import Mathlib

/-!
A shallow embedding of `art/attacks/inference/membership_inference/shadow_models.py`
(class `ShadowModels`): shadow-dataset generation (`generate_shadow_dataset`),
hill-climbing record synthesis (`_hill_climbing_synthesis`) and synthetic
shadow-dataset assembly (`generate_synthetic_shadow_dataset`), together with
theorems about the embedded code.

Conventions: classifier scores and the `member_ratio` are exact rationals
(`ℚ`); `numpy` arrays are `List`s; Python exceptions are the `PyError` type
(messages elided); the classifier capabilities (`fit`, `predict`,
`clone_for_refitting`) and the two random sources (the ambient shuffle and the
pool's seeded generator) are explicit inputs.
-/

/-- The Python exception kinds relevant to the module (payloads elided).
`valueError` models the validation `ValueError`, `runtimeError` models the
synthesis-failure `RuntimeError`, and `nameError` models the `NameError` that
the retry loop would hit with `max_retries = 0` and no previously bound
`random_record`. -/
inductive PyError : Type
  | valueError : PyError
  | runtimeError : PyError
  | nameError : PyError
  deriving DecidableEq

variable {M A B P R : Type}

/-- Did this call return normally (no exception)? -/
def isOkE : Except PyError A → Bool
  | Except.ok _ => true
  | Except.error _ => false

/-- Did this call raise the synthesis-failure `RuntimeError`? -/
def isRuntimeError : Except PyError A → Bool
  | Except.error PyError.runtimeError => true
  | _ => false

/-- Did the retry loop succeed and actually bind a fresh record? -/
def isOkSome : Except PyError (Option A) → Bool
  | Except.ok (some _) => true
  | _ => false

/-- Python `int(q * n)` for a rational `q` and natural `n`: the exact product
truncated toward zero, computed on numerator and denominator. -/
def pyTruncMul (q : ℚ) (n : ℕ) : ℤ :=
  if q.num * n < 0 then -(-(q.num * n) / q.den) else q.num * n / q.den

/-- Resolve a Python slice index `k` (possibly negative) against a sequence of
length `n`, as `l[:k]` and `l[k:]` do. -/
def pyBound (n : ℕ) (k : ℤ) : ℕ :=
  if k < 0 then ((n : ℤ) + k).toNat else min k.toNat n

/-- Python `l[:k]`. -/
def pySliceTo (l : List A) (k : ℤ) : List A := l.take (pyBound l.length k)

/-- Python `l[k:]`. -/
def pySliceFrom (l : List A) (k : ℤ) : List A := l.drop (pyBound l.length k)

/-- `np.argmax` on a score vector: index of the first maximal entry
(`0` on the empty list, which the code never queries). -/
def npArgmax (l : List ℚ) : ℕ :=
  (List.range l.length).foldl (fun b i => if l.getD b 0 < l.getD i 0 then i else b) 0

/-- `np.zeros(n)` with entry `c` set to `1.0`: the one-hot label vector. -/
def oneHot (n c : ℕ) : List ℚ :=
  (List.range n).map (fun j => if j = c then 1 else 0)

/-- The state of a `ShadowModels` pool: the cloned shadow models and the
per-model training-set slots (`self._shadow_models_train_sets`). -/
structure PoolState (M A B : Type) where
  models : List M
  trainSets : List (Option (List A × List B))
  deriving DecidableEq

/-- `ShadowModels.__init__`: clone the template once per shadow model; the
training-set list starts as `[None] * num_shadow_models`. -/
def initShadowModels (cloneForRefitting : M → M) (template : M) (n : ℕ) :
    PoolState M A B :=
  { models := (List.range n).map (fun _ => cloneForRefitting template),
    trainSets := List.replicate n none }

/-- `ShadowModels.get_shadow_models`. -/
def getShadowModels (st : PoolState M A B) : List M := st.models

/-- `ShadowModels.get_shadow_models_train_sets`. -/
def getShadowModelsTrainSets (st : PoolState M A B) :
    List (Option (List A × List B)) := st.trainSets

/-- One aggregated triple `(samples, true labels, model predictions)`. -/
structure ShadowTriple (A B P : Type) where
  samples : List A
  labels : List B
  preds : List P
  deriving DecidableEq

/-- Block `i` of the shuffled data: `x[bs * i : bs * (i + 1)]`. -/
def shadowBlock (xs : List A) (bs i : ℕ) : List A := (xs.drop (bs * i)).take bs

/-- `ShadowModels.generate_shadow_dataset`.  The ambient
`np.random.permutation(len(x))` is the input `randomIndices`; `dA`/`dB` are
array-read defaults (never used when the indices are in range); `fit` and
`mpredict` are the classifier's capabilities.  The pool is assumed nonempty
(Python would raise `ZeroDivisionError` on `len(x) // 0`; that case is not
modelled).  The returned pair is (result, pool state after the call); on the
validation error the pool state is returned unchanged. -/
def generateShadowDataset (fit : M → List A → List B → M)
    (mpredict : M → List A → List P) (randomIndices : List ℕ) (dA : A) (dB : B)
    (st : PoolState M A B) (x : List A) (y : List B) (mfrac : ℚ) :
    Except PyError (ShadowTriple A B P × ShadowTriple A B P) × PoolState M A B :=
  if x.length ≠ y.length then
    (Except.error PyError.valueError, st)
  else
    let xs := randomIndices.map (fun i => x.getD i dA)
    let ys := randomIndices.map (fun i => y.getD i dB)
    let n := st.models.length
    let bs := xs.length / n
    let t := pyTruncMul mfrac bs
    let trainX := fun i => pySliceTo (shadowBlock xs bs i) t
    let trainY := fun i => pySliceTo (shadowBlock ys bs i) t
    let testX := fun i => pySliceFrom (shadowBlock xs bs i) t
    let testY := fun i => pySliceFrom (shadowBlock ys bs i) t
    let fitted := fun (p : ℕ × M) => fit p.2 (trainX p.1) (trainY p.1)
    (Except.ok
      (⟨((List.range n).map trainX).flatten, ((List.range n).map trainY).flatten,
          (st.models.enum.map (fun p => mpredict (fitted p) (trainX p.1))).flatten⟩,
        ⟨((List.range n).map testX).flatten, ((List.range n).map testY).flatten,
          (st.models.enum.map (fun p => mpredict (fitted p) (testX p.1))).flatten⟩),
      { models := st.models.enum.map fitted,
        trainSets := (List.range n).map (fun i => some (trainX i, trainY i)) })

/-- The loop state of `_hill_climbing_synthesis`: the current candidate `x`,
the best record so far (`best_x`, `None` at the start), its confidence
(`best_class_confidence`, initially `0`), the consecutive-rejection counter,
the current number of features randomized per step, and `rix`, the number of
`self._rng.random()` draws consumed so far (the rng is the stream `rng`). -/
structure HCState (R : Type) where
  x : R
  bestX : Option R
  bestConf : ℚ
  numRej : ℕ
  kFeat : ℕ
  rix : ℕ
  deriving DecidableEq

/-- The branch data of one loop iteration, before the trailing
`x = randomize_features_fn(best_x, k_features_randomized)` call: the updated
`best_x`, `best_class_confidence`, `num_rejections`, `k_features_randomized`
and rng position. -/
structure HCPre (R : Type) where
  bestX : Option R
  bestConf : ℚ
  numRej : ℕ
  kFeat : ℕ
  rix : ℕ
  deriving DecidableEq

/-- One iteration of the `for` loop in `_hill_climbing_synthesis`, up to (but
not including) the trailing `randomize_features_fn` call: query the
classifier, read the wanted-class confidence, and take the accept / improve /
reject branches.  `Sum.inl r` is the `return x` path (the record accepted by
the stochastic test); `Sum.inr` carries the updated loop variables. -/
def hillBranch (predict : R → List ℚ) (wanted : ℕ) (minConf : ℚ)
    (maxRej minFeat : ℕ) (rng : ℕ → ℚ) (s : HCState R) : R ⊕ HCPre R :=
  if s.bestConf ≤ (predict s.x).getD wanted 0 then
    if minConf < (predict s.x).getD wanted 0 ∧ npArgmax (predict s.x) = wanted then
      if rng s.rix < (predict s.x).getD wanted 0 then
        Sum.inl s.x
      else
        Sum.inr ⟨some s.x, (predict s.x).getD wanted 0, 0, s.kFeat, s.rix + 1⟩
    else
      Sum.inr ⟨some s.x, (predict s.x).getD wanted 0, 0, s.kFeat, s.rix⟩
  else
    if maxRej < s.numRej + 1 then
      Sum.inr ⟨s.bestX, s.bestConf, 0, max minFeat ((s.kFeat + 1) / 2), s.rix⟩
    else
      Sum.inr ⟨s.bestX, s.bestConf, s.numRej + 1, s.kFeat, s.rix⟩

/-- One full iteration of the loop: the branch above followed by
`x = randomize_features_fn(best_x, k_features_randomized)`.  Note that
`randomize` receives the (possibly `None`) `best_x`, exactly as the Python
passes it. -/
def hillStep (predict : R → List ℚ) (wanted : ℕ) (minConf : ℚ)
    (maxRej minFeat : ℕ) (randomize : Option R → ℕ → R) (rng : ℕ → ℚ)
    (s : HCState R) : R ⊕ HCState R :=
  match hillBranch predict wanted minConf maxRej minFeat rng s with
  | Sum.inl r => Sum.inl r
  | Sum.inr p =>
      Sum.inr ⟨randomize p.bestX p.kFeat, p.bestX, p.bestConf, p.numRej, p.kFeat, p.rix⟩

/-- The `for _ in range(max_iterations)` loop: run `fuel` iterations; if no
iteration returns, raise `RuntimeError("Failed to synthesize data record")`. -/
def hillClimbLoop (predict : R → List ℚ) (wanted : ℕ) (minConf : ℚ)
    (maxRej minFeat : ℕ) (randomize : Option R → ℕ → R) (rng : ℕ → ℚ) :
    ℕ → HCState R → Except PyError R
  | 0, _ => Except.error PyError.runtimeError
  | fuel + 1, s =>
      match hillStep predict wanted minConf maxRej minFeat randomize rng s with
      | Sum.inl r => Except.ok r
      | Sum.inr s' => hillClimbLoop predict wanted minConf maxRej minFeat randomize rng fuel s'

/-- `ShadowModels._hill_climbing_synthesis`: initial state
`best_x = None`, `best_class_confidence = 0`, `num_rejections = 0`,
`k_features_randomized = max_features_randomized`, candidate
`x = random_record_fn()` (the input `randomRecord`), then the loop. -/
def hillClimbingSynthesis (predict : R → List ℚ) (wanted : ℕ) (minConf : ℚ)
    (maxFeat maxIter maxRej minFeat : ℕ) (randomRecord : R)
    (randomize : Option R → ℕ → R) (rng : ℕ → ℚ) : Except PyError R :=
  hillClimbLoop predict wanted minConf maxRej minFeat randomize rng maxIter
    ⟨randomRecord, none, 0, 0, maxFeat, 0⟩

/-- Forget the returned record of a full iteration, keeping only a continuing
state. -/
def stepOpt : R ⊕ HCState R → Option (HCState R)
  | Sum.inl _ => none
  | Sum.inr s => some s

/-- The trace of loop states: `hillStates … n s` is the state after `n` full
iterations starting from `s`, or `none` once some iteration has returned. -/
def hillStates (predict : R → List ℚ) (wanted : ℕ) (minConf : ℚ)
    (maxRej minFeat : ℕ) (randomize : Option R → ℕ → R) (rng : ℕ → ℚ) :
    ℕ → HCState R → Option (HCState R)
  | 0, s => some s
  | n + 1, s =>
      (hillStates predict wanted minConf maxRej minFeat randomize rng n s).bind
        (fun s' => stepOpt (hillStep predict wanted minConf maxRej minFeat randomize rng s'))

/-- The `best_x` the branch would hand to `randomize_features_fn`, or `none`
when the iteration returns instead.  (Observer used to state which argument
the randomizer receives.) -/
def branchBestX : R ⊕ HCPre R → Option (Option R)
  | Sum.inl _ => none
  | Sum.inr p => some p.bestX

/-- The `for tries in range(max_retries)` loop around a single record
synthesis in `generate_synthetic_shadow_dataset`.  `attempt t` is the result
of the `t`-th `_hill_climbing_synthesis` call; only `RuntimeError` is caught
(`except RuntimeError`), and it is re-raised when `tries == max_retries - 1`.
`remaining` counts the loop iterations left.  The result pairs the Python
outcome with the number of attempts actually performed; `Except.ok none`
means the loop was exhausted without ever binding `random_record` (only
possible with `max_retries = 0`). -/
def synthRetryLoop (attempt : ℕ → Except PyError R) (maxRetries : ℕ) :
    ℕ → ℕ → Except PyError (Option R) × ℕ
  | 0, tries => (Except.ok none, tries)
  | remaining + 1, tries =>
      match attempt tries with
      | Except.ok r => (Except.ok (some r), tries + 1)
      | Except.error PyError.runtimeError =>
          if tries = maxRetries - 1 then (Except.error PyError.runtimeError, tries + 1)
          else synthRetryLoop attempt maxRetries remaining (tries + 1)
      | Except.error e => (Except.error e, tries + 1)

/-- The full retry loop for one record, started at `tries = 0`. -/
def synthOneRecord (attempt : ℕ → Except PyError R) (maxRetries : ℕ) :
    Except PyError (Option R) × ℕ :=
  synthRetryLoop attempt maxRetries maxRetries 0

/-- The `(wanted_class, record index)` pairs enumerated by the two nested
`for` loops of `generate_synthetic_shadow_dataset`, in execution order. -/
def synthIndexList (nbClasses rpc : ℕ) : List (ℕ × ℕ) :=
  (List.range nbClasses).flatMap (fun c => (List.range rpc).map (fun j => (c, j)))

/-- The record/label collection phase of `generate_synthetic_shadow_dataset`:
for each `(c, j)` run the retry loop (`synth c j` gives the per-try results)
and append `random_record` to `x` and the one-hot label to `y` in lockstep.
`last` models the Python variable `random_record`, which survives loop
iterations: if the retry loop falls through without binding it
(`max_retries = 0`), the previous record is silently appended again, and on
the very first record a `NameError` is raised. -/
def buildSyntheticAux (synth : ℕ → ℕ → ℕ → Except PyError R)
    (maxRetries nbClasses : ℕ) :
    List (ℕ × ℕ) → Option R → Except PyError (List R × List (List ℚ))
  | [], _ => Except.ok ([], [])
  | pr :: rest, last =>
      match (synthOneRecord (synth pr.1 pr.2) maxRetries).1 with
      | Except.error e => Except.error e
      | Except.ok (some r) =>
          match buildSyntheticAux synth maxRetries nbClasses rest (some r) with
          | Except.error e => Except.error e
          | Except.ok (xs, ys) => Except.ok (r :: xs, oneHot nbClasses pr.1 :: ys)
      | Except.ok none =>
          match last with
          | none => Except.error PyError.nameError
          | some r =>
              match buildSyntheticAux synth maxRetries nbClasses rest (some r) with
              | Except.error e => Except.error e
              | Except.ok (xs, ys) => Except.ok (r :: xs, oneHot nbClasses pr.1 :: ys)

/-- The synthetic records and labels built by
`generate_synthetic_shadow_dataset` before it calls
`generate_shadow_dataset`: `records_per_class = dataset_size // nb_classes`
records for each class (the pool is queried with `nb_classes ≥ 1`; Python
would raise `ZeroDivisionError` on `nb_classes = 0`). -/
def buildSyntheticDataset (synth : ℕ → ℕ → ℕ → Except PyError R)
    (maxRetries nbClasses datasetSize : ℕ) :
    Except PyError (List R × List (List ℚ)) :=
  buildSyntheticAux synth maxRetries nbClasses
    (synthIndexList nbClasses (datasetSize / nbClasses)) none

/-- `ShadowModels.generate_synthetic_shadow_dataset`: build the synthetic
records and labels, then hand them verbatim to `generate_shadow_dataset`.
On a synthesis failure the pool state is unchanged. -/
def generateSyntheticShadowDataset (fit : M → List R → List (List ℚ) → M)
    (mpredict : M → List R → List P) (synth : ℕ → ℕ → ℕ → Except PyError R)
    (randomIndices : List ℕ) (dA : R) (dB : List ℚ) (st : PoolState M R (List ℚ))
    (datasetSize maxRetries nbClasses : ℕ) (mfrac : ℚ) :
    Except PyError (ShadowTriple R (List ℚ) P × ShadowTriple R (List ℚ) P) ×
      PoolState M R (List ℚ) :=
  match buildSyntheticDataset synth maxRetries nbClasses datasetSize with
  | Except.error e => (Except.error e, st)
  | Except.ok (xs, ys) =>
      generateShadowDataset fit mpredict randomIndices dA dB st xs ys mfrac

/-! Concrete instances used to exercise the theorems on closed inputs.
Models, samples, labels, predictions and synthesized records are all `ℕ`. -/

/-- Example `fit`: remember how many training samples were seen. -/
def fitEx (m : ℕ) (tx : List ℕ) (_ : List ℕ) : ℕ := m + tx.length

/-- Example `predict`: shift each sample by the model parameter. -/
def mpredictEx (m : ℕ) (l : List ℕ) : List ℕ := l.map (fun a => m + a)

/-- A two-model pool with untrained slots. -/
def exPool : PoolState ℕ ℕ ℕ := ⟨[10, 20], [none, none]⟩

/-- A six-sample dataset. -/
def exX : List ℕ := [0, 1, 2, 3, 4, 5]

/-- The identity shuffle on six samples. -/
def exIdx : List ℕ := [0, 1, 2, 3, 4, 5]

/-- The rational `1/2` given by its components, so that the kernel can
evaluate `num`/`den` projections directly. -/
def oneHalf : ℚ := ⟨1, 2, by decide, Nat.coprime_one_left 2⟩

/-- Classifier for hill-climbing runs: record `0` scores `[3, 2]` (wanted
class `1` has confidence `2` but is not the arg-max); every other record
scores `[0, 1]` (class `1` is the arg-max with confidence `1`). -/
def predA (x : ℕ) : List ℚ := if x = 0 then [3, 2] else [0, 1]

/-- Constant classifier: every record scores `[0, 1]`. -/
def predB (_ : ℕ) : List ℚ := [0, 1]

/-- Constant classifier assigning its only class a negative score. -/
def predNeg (_ : ℕ) : List ℚ := [-1]

/-- Feature randomizer stepping to the successor of the best record. -/
def randNext (o : Option ℕ) (_ : ℕ) : ℕ := o.getD 0 + 1

/-- Rng stream that always draws `0`: every stochastic test passes. -/
def rngZero (_ : ℕ) : ℚ := 0

/-- Rng stream that always draws `1`: every stochastic test fails (a draw
must be strictly below the confidence). -/
def rngOne (_ : ℕ) : ℚ := 1

/-- A synthesis attempt that always fails with the synthesis-failure error. -/
def attemptFail (_ : ℕ) : Except PyError ℕ := Except.error PyError.runtimeError

/-- A synthesis oracle that succeeds on every try. -/
def synthOk (c j : ℕ) (_ : ℕ) : Except PyError ℕ := Except.ok (10 * c + j)

/-- Example `fit` over synthetic records (labels are one-hot vectors). -/
def fitSyn (m : ℕ) (tx : List ℕ) (_ : List (List ℚ)) : ℕ := m + tx.length

/-- A two-model pool for the synthetic path (labels are one-hot vectors). -/
def exPoolSyn : PoolState ℕ ℕ (List ℚ) := ⟨[10, 20], [none, none]⟩

/-! Helper lemmas about the embedded operations. -/

theorem pySlice_length_add (l : List A) (k : ℤ) :
    (pySliceTo l k).length + (pySliceFrom l k).length = l.length := by
  simp only [pySliceTo, pySliceFrom, List.length_take, List.length_drop]
  rw [Nat.min_def]
  split <;> omega

theorem shadowBlock_length (xs : List A) (n i : ℕ) (hi : i < n) :
    (shadowBlock xs (xs.length / n) i).length = xs.length / n := by
  have h1 : xs.length / n * n ≤ xs.length := Nat.div_mul_le_self _ _
  have h2 : xs.length / n * (i + 1) ≤ xs.length / n * n :=
    Nat.mul_le_mul_left _ hi
  have h3 : xs.length / n * (i + 1) = xs.length / n * i + xs.length / n := by ring
  simp only [shadowBlock, List.length_take, List.length_drop]
  rw [Nat.min_def]
  split <;> omega

theorem sum_map_add (l : List A) (f g : A → ℕ) :
    (l.map f).sum + (l.map g).sum = (l.map (fun a => f a + g a)).sum := by
  induction l with
  | nil => rfl
  | cons a t ih => simp only [List.map_cons, List.sum_cons, ← ih]; omega

theorem sum_map_const_range (n c : ℕ) :
    ((List.range n).map (fun _ => c)).sum = n * c := by
  induction n with
  | zero => simp
  | succ m ih =>
      rw [List.range_succ]
      simp only [List.map_append, List.sum_append, ih, List.map_cons, List.map_nil,
        List.sum_cons, List.sum_nil]
      ring

/-- C5: mismatched sample/label counts raise the validation `ValueError`
before any mutation: the pool state is returned unchanged. -/
theorem generateShadowDataset_mismatch_no_mutation (fit : M → List A → List B → M)
    (mpredict : M → List A → List P) (randomIndices : List ℕ) (dA : A) (dB : B)
    (st : PoolState M A B) (x : List A) (y : List B) (mfrac : ℚ)
    (h : x.length ≠ y.length) :
    generateShadowDataset fit mpredict randomIndices dA dB st x y mfrac =
      (Except.error PyError.valueError, st) := by
  simp [generateShadowDataset, h]

/-- Witness for C5 on a concrete mismatched dataset. -/
theorem generateShadowDataset_mismatch_no_mutation_witness :
    ([0, 1] : List ℕ).length ≠ ([3] : List ℕ).length ∧
      generateShadowDataset fitEx mpredictEx exIdx 0 0 exPool [0, 1] [3] oneHalf =
        (Except.error PyError.valueError, exPool) :=
  ⟨by decide,
    generateShadowDataset_mismatch_no_mutation fitEx mpredictEx exIdx 0 0 exPool
      [0, 1] [3] oneHalf (by decide)⟩

/-- C3: for a nonempty pool and equal-length inputs, the member and nonmember
sample counts add up to `N * (len(x) // N)`: the division remainder is
silently dropped. -/
theorem generateShadowDataset_total_sample_count (fit : M → List A → List B → M)
    (mpredict : M → List A → List P) (randomIndices : List ℕ) (dA : A) (dB : B)
    (st : PoolState M A B) (x : List A) (y : List B) (mfrac : ℚ)
    (hN : 1 ≤ st.models.length) (hxy : x.length = y.length)
    (hperm : randomIndices.length = x.length) :
    (generateShadowDataset fit mpredict randomIndices dA dB st x y mfrac).1.map
        (fun pr => pr.1.samples.length + pr.2.samples.length) =
      Except.ok (st.models.length * (x.length / st.models.length)) := by
  have hne : ¬x.length ≠ y.length := by simp [hxy]
  simp only [generateShadowDataset, if_neg hne, Except.map, List.length_flatten,
    List.map_map]
  have hxs : (randomIndices.map (fun i => x.getD i dA)).length = x.length := by
    simp [hperm]
  rw [hxs, sum_map_add]
  rw [List.map_congr_left (g := fun _ => x.length / st.models.length)
    (fun i hi => by
      have hi' : i < st.models.length := List.mem_range.mp hi
      show (pySliceTo (shadowBlock (randomIndices.map fun i => x.getD i dA)
            (x.length / st.models.length) i) _).length +
          (pySliceFrom (shadowBlock (randomIndices.map fun i => x.getD i dA)
            (x.length / st.models.length) i) _).length = x.length / st.models.length
      rw [pySlice_length_add]
      have := shadowBlock_length (randomIndices.map fun i => x.getD i dA)
        st.models.length i hi'
      rw [hxs] at this
      exact this)]
  exact congrArg Except.ok (sum_map_const_range _ _)

/-- Witness for C3: two models, six samples, ratio `1/2`; the counts add to
`2 * (6 // 2) = 6`. -/
theorem generateShadowDataset_total_sample_count_witness :
    (1 ≤ exPool.models.length ∧ exX.length = exX.length ∧ exIdx.length = exX.length) ∧
      (generateShadowDataset fitEx mpredictEx exIdx 0 0 exPool exX exX oneHalf).1.map
          (fun pr => pr.1.samples.length + pr.2.samples.length) =
        Except.ok (exPool.models.length * (exX.length / exPool.models.length)) :=
  ⟨⟨by decide, rfl, by decide⟩,
    generateShadowDataset_total_sample_count fitEx mpredictEx exIdx 0 0 exPool
      exX exX oneHalf (by decide) rfl (by decide)⟩

/-- `int(q * n)` agrees with `⌊q * n⌋` for nonnegative `q` (truncation toward
zero and floor coincide on nonnegative values). -/
theorem pyTruncMul_eq_floor (q : ℚ) (n : ℕ) (h0 : 0 ≤ q) :
    pyTruncMul q n = ⌊q * (n : ℚ)⌋ := by
  have hnum : 0 ≤ q.num := Rat.num_nonneg.mpr h0
  have hprod : ¬q.num * (n : ℤ) < 0 :=
    not_lt.mpr (mul_nonneg hnum (Int.natCast_nonneg n))
  have hq : q * (n : ℚ) = ((q.num * (n : ℤ) : ℤ) : ℚ) / ((q.den : ℕ) : ℚ) := by
    calc q * (n : ℚ) = (q.num : ℚ) / (q.den : ℚ) * (n : ℚ) := by
          rw [Rat.num_div_den]
      _ = ((q.num * (n : ℤ) : ℤ) : ℚ) / ((q.den : ℕ) : ℚ) := by
          push_cast
          ring
  rw [pyTruncMul, if_neg hprod, hq, Rat.floor_intCast_div_natCast]

/-- For `0 ≤ q ≤ 1`, `int(q * n)` lies in `[0, n]`. -/
theorem pyTruncMul_toNat_le (q : ℚ) (n : ℕ) (h0 : 0 ≤ q) (h1 : q ≤ 1) :
    (pyTruncMul q n).toNat ≤ n := by
  rw [pyTruncMul_eq_floor q n h0]
  rw [Int.toNat_le]
  calc ⌊q * (n : ℚ)⌋ ≤ ⌊(1 : ℚ) * (n : ℚ)⌋ :=
        Int.floor_le_floor (mul_le_mul_of_nonneg_right h1 (by positivity))
    _ = (n : ℤ) := by rw [one_mul, Int.floor_natCast]

/-- For `0 ≤ q`, `int(q * n)` is nonnegative. -/
theorem pyTruncMul_nonneg (q : ℚ) (n : ℕ) (h0 : 0 ≤ q) : 0 ≤ pyTruncMul q n := by
  rw [pyTruncMul_eq_floor q n h0]
  positivity

/-- Taking the training prefix of a block of length `bs` yields exactly
`int(q * bs)` samples when `0 ≤ q ≤ 1`. -/
theorem pySliceTo_trunc_length (l : List A) (q : ℚ) (h0 : 0 ≤ q) (h1 : q ≤ 1) :
    (pySliceTo l (pyTruncMul q l.length)).length = (pyTruncMul q l.length).toNat := by
  have ht0 : ¬pyTruncMul q l.length < 0 := not_lt.mpr (pyTruncMul_nonneg q l.length h0)
  have hle : (pyTruncMul q l.length).toNat ≤ l.length :=
    pyTruncMul_toNat_le q l.length h0 h1
  simp only [pySliceTo, pyBound, if_neg ht0, List.length_take]
  omega

/-- C4: every training-set slot is `None` before any generation call; after a
successful `generate_shadow_dataset` call, `get_shadow_models_train_sets`
has one slot per model, in model-index order, and slot `i` holds a training
set of exactly `⌊member_ratio * block_size⌋` samples. -/
theorem generateShadowDataset_train_set_sizes (fit : M → List A → List B → M)
    (mpredict : M → List A → List P) (randomIndices : List ℕ) (dA : A) (dB : B)
    (st : PoolState M A B) (x : List A) (y : List B) (mfrac : ℚ)
    (h0 : 0 ≤ mfrac) (h1 : mfrac ≤ 1) (hxy : x.length = y.length)
    (hperm : randomIndices.length = x.length) :
    (∀ (cloneForRefitting : M → M) (template : M) (k : ℕ),
        getShadowModelsTrainSets
            (initShadowModels (A := A) (B := B) cloneForRefitting template k) =
          List.replicate k none) ∧
      ∀ res st',
        generateShadowDataset (P := P) fit mpredict randomIndices dA dB st x y mfrac =
          (Except.ok res, st') →
        (getShadowModelsTrainSets st').length = st.models.length ∧
          ∀ i, i < st.models.length →
            ((getShadowModelsTrainSets st').getD i none).map (fun ts => ts.1.length) =
              some (⌊mfrac * ((x.length / st.models.length : ℕ) : ℚ)⌋.toNat) := by
  constructor
  · intro cloneForRefitting template k
    simp [getShadowModelsTrainSets, initShadowModels]
  · intro res st' h
    have hne : ¬x.length ≠ y.length := by simp [hxy]
    simp only [generateShadowDataset, if_neg hne] at h
    have h2 := congrArg Prod.snd h
    dsimp only at h2
    subst h2
    have hxs : (randomIndices.map (fun j => x.getD j dA)).length = x.length := by
      simp [hperm]
    constructor
    · simp [getShadowModelsTrainSets]
    · intro i hi
      simp only [getShadowModelsTrainSets]
      rw [List.getD_eq_getElem _ _ (by simpa using hi)]
      simp only [List.getElem_map, List.getElem_range]
      simp only [Option.map_some']
      refine congrArg some ?_
      have hbl := shadowBlock_length (randomIndices.map fun j => x.getD j dA)
        st.models.length i hi
      rw [hxs] at hbl
      rw [hxs]
      nth_rewrite 2 3 [← hbl]
      rw [pySliceTo_trunc_length _ mfrac h0 h1, pyTruncMul_eq_floor mfrac _ h0]

/-- Witness for C4: two models, six samples, ratio `1/2`; slot 0 holds
`⌊1/2 * 3⌋ = 1` training sample, and a fresh pool has only `None` slots. -/
theorem generateShadowDataset_train_set_sizes_witness :
    (0 ≤ oneHalf ∧ oneHalf ≤ 1 ∧ exX.length = exX.length ∧ exIdx.length = exX.length) ∧
      getShadowModelsTrainSets (initShadowModels (A := ℕ) (B := ℕ) (fun m => m + 1) 0 2) =
        List.replicate 2 none ∧
      ((getShadowModelsTrainSets
            (generateShadowDataset (P := ℕ) fitEx mpredictEx exIdx 0 0 exPool exX exX
              oneHalf).2).getD 0 none).map (fun ts => ts.1.length) =
        some (⌊oneHalf * ((exX.length / exPool.models.length : ℕ) : ℚ)⌋.toNat) :=
  ⟨⟨by decide, by decide, rfl, by decide⟩,
    (generateShadowDataset_train_set_sizes fitEx mpredictEx exIdx 0 0 exPool exX exX
        oneHalf (by decide) (by decide) rfl (by decide)).1 (fun m => m + 1) 0 2,
    ((generateShadowDataset_train_set_sizes fitEx mpredictEx exIdx 0 0 exPool exX exX
        oneHalf (by decide) (by decide) rfl (by decide)).2 _ _ rfl).2 0 (by decide)⟩

/-- When every attempt up to the retry budget fails with the synthesis
failure, the retry loop performs exactly `maxRetries` attempts and re-raises
the `RuntimeError` on the last one. -/
theorem synthRetryLoop_all_fail (attempt : ℕ → Except PyError R) (maxRetries : ℕ)
    (hfail : ∀ i, i < maxRetries → isRuntimeError (attempt i) = true) :
    ∀ remaining tries, remaining + tries = maxRetries → 1 ≤ remaining →
      synthRetryLoop attempt maxRetries remaining tries =
        (Except.error PyError.runtimeError, maxRetries) := by
  intro remaining
  induction remaining with
  | zero => intro tries _ h1; exact absurd h1 (by decide)
  | succ rem ih =>
      intro tries hsum _
      have htries : tries < maxRetries := by omega
      have hrt := hfail tries htries
      rw [synthRetryLoop]
      cases hat : attempt tries with
      | ok r => rw [hat] at hrt; simp [isRuntimeError] at hrt
      | error e =>
          cases e with
          | valueError => rw [hat] at hrt; simp [isRuntimeError] at hrt
          | nameError => rw [hat] at hrt; simp [isRuntimeError] at hrt
          | runtimeError =>
              by_cases hlast : tries = maxRetries - 1
              · rw [if_pos hlast]
                have : tries + 1 = maxRetries := by omega
                rw [this]
              · rw [if_neg hlast]
                exact ih (tries + 1) (by omega) (by omega)

/-- C2: (a) if no iteration of the hill-climbing loop accepts a record, the
loop raises the synthesis-failure `RuntimeError` (a different exception kind
from the validation `valueError`); (b) when every synthesis attempt fails
with that `RuntimeError`, the per-record retry loop of
`generate_synthetic_shadow_dataset` performs exactly `max_retries`
hill-climbing attempts and then propagates the `RuntimeError`. -/
theorem hillClimb_failure_and_retry_count (predict : R → List ℚ) (wanted : ℕ)
    (minConf : ℚ) (maxRej minFeat : ℕ) (randomize : Option R → ℕ → R)
    (rng : ℕ → ℚ) (fuel : ℕ) (s : HCState R) (attempt : ℕ → Except PyError R)
    (maxRetries : ℕ) :
    ((∀ r, hillClimbLoop predict wanted minConf maxRej minFeat randomize rng fuel s ≠
          Except.ok r) →
        hillClimbLoop predict wanted minConf maxRej minFeat randomize rng fuel s =
          Except.error PyError.runtimeError) ∧
      (1 ≤ maxRetries → (∀ i, i < maxRetries → isRuntimeError (attempt i) = true) →
        synthOneRecord attempt maxRetries =
          (Except.error PyError.runtimeError, maxRetries)) := by
  constructor
  · induction fuel generalizing s with
    | zero => intro _; rfl
    | succ n ih =>
        intro h
        cases hstep : hillStep predict wanted minConf maxRej minFeat randomize rng s with
        | inl r =>
            exact absurd (by simp [hillClimbLoop, hstep]) (h r)
        | inr s' =>
            have hred : hillClimbLoop predict wanted minConf maxRej minFeat randomize rng
                (n + 1) s =
                hillClimbLoop predict wanted minConf maxRej minFeat randomize rng n s' := by
              simp [hillClimbLoop, hstep]
            rw [hred]
            exact ih s' (fun r hr => h r (by rw [hred]; exact hr))
  · intro h1 hfail
    exact synthRetryLoop_all_fail attempt maxRetries hfail maxRetries 0 (by omega) h1

/-- Witness for C2: a run that never accepts (the rng draw `1` always fails
the strict test) errors with the `RuntimeError`, and two always-failing
attempts give exactly two tries before propagation. -/
theorem hillClimb_failure_and_retry_count_witness :
    hillClimbLoop predB 1 0 3 1 randNext rngOne 1 ⟨0, none, 0, 0, 2, 0⟩ =
        Except.error PyError.runtimeError ∧
      synthOneRecord attemptFail 2 = (Except.error PyError.runtimeError, 2) :=
  ⟨(hillClimb_failure_and_retry_count predB 1 0 3 1 randNext rngOne 1
        ⟨0, none, 0, 0, 2, 0⟩ attemptFail 2).1
      (fun r h => by
        rw [show hillClimbLoop predB 1 0 3 1 randNext rngOne 1 ⟨0, none, 0, 0, 2, 0⟩ =
            Except.error PyError.runtimeError from rfl] at h
        exact Except.noConfusion h),
    (hillClimb_failure_and_retry_count predB 1 0 3 1 randNext rngOne 1
        ⟨0, none, 0, 0, 2, 0⟩ attemptFail 2).2 (by decide) (fun i _ => rfl)⟩

/-- C1 (amended): the acceptance test is nested inside the improvement
branch.  When the candidate's confidence is at least the best-known
confidence, exceeds `min_confidence`, the wanted class is the arg-max and the
rng draw falls strictly below the confidence, the record is returned; when
the confidence is strictly below the best-known confidence, the iteration
never returns a record — the acceptance test is not applied there. -/
theorem hillBranch_acceptance_gated_by_best (predict : R → List ℚ) (wanted : ℕ)
    (minConf : ℚ) (maxRej minFeat : ℕ) (rng : ℕ → ℚ) (s : HCState R) :
    ((s.bestConf ≤ (predict s.x).getD wanted 0 →
        minConf < (predict s.x).getD wanted 0 →
        npArgmax (predict s.x) = wanted →
        rng s.rix < (predict s.x).getD wanted 0 →
        hillBranch predict wanted minConf maxRej minFeat rng s = Sum.inl s.x) ∧
      ((predict s.x).getD wanted 0 < s.bestConf →
        ∀ r, hillBranch predict wanted minConf maxRej minFeat rng s ≠ Sum.inl r)) := by
  constructor
  · intro hbest hmin harg hrng
    simp only [hillBranch]
    rw [if_pos hbest, if_pos ⟨hmin, harg⟩, if_pos hrng]
  · intro hlt r
    simp only [hillBranch]
    rw [if_neg (not_le.mpr hlt)]
    split <;> exact fun h => Sum.noConfusion h

/-- Witness for the amended C1: an accepting branch and a non-returning
branch on concrete states. -/
theorem hillBranch_acceptance_gated_by_best_witness :
    hillBranch predB 1 0 3 1 rngZero ⟨5, none, 0, 0, 2, 0⟩ = Sum.inl 5 ∧
      hillBranch predA 1 0 3 1 rngZero ⟨1, some 0, 2, 0, 2, 0⟩ ≠ Sum.inl 1 :=
  ⟨(hillBranch_acceptance_gated_by_best predB 1 0 3 1 rngZero
        ⟨5, none, 0, 0, 2, 0⟩).1 (by decide) (by decide) (by decide) (by decide),
    (hillBranch_acceptance_gated_by_best predA 1 0 3 1 rngZero
        ⟨1, some 0, 2, 0, 2, 0⟩).2 (by decide) 1⟩

/-- Counterexample to C1 as stated: a concrete run in which, at iteration 1,
the candidate's confidence (`1`) exceeds `min_confidence = 0`, the wanted
class is the arg-max and the rng draw (`0`) is below the confidence — so the
claimed unconditional acceptance test would have returned the record — yet
the code, whose test is gated by the best-known confidence (`2`), never
returns and the search fails. -/
theorem hillClimb_acceptance_not_unconditional_cex :
    hillClimbingSynthesis predA 1 0 2 3 3 1 0 randNext rngZero =
        Except.error PyError.runtimeError ∧
      hillStates predA 1 0 3 1 randNext rngZero 1 ⟨0, none, 0, 0, 2, 0⟩ =
        some ⟨1, some 0, 2, 0, 2, 0⟩ ∧
      (0 : ℚ) < (predA 1).getD 1 0 ∧ npArgmax (predA 1) = 1 ∧
      rngZero 0 < (predA 1).getD 1 0 ∧ (predA 1).getD 1 0 < 2 :=
  ⟨rfl, rfl, by decide, by decide, by decide, by decide⟩

/-- Any continuing iteration keeps the step size between `minFeat` and its
previous value (given the invariant `minFeat ≤ kFeat`). -/
theorem hillBranch_inr_kFeat (predict : R → List ℚ) (wanted : ℕ) (minConf : ℚ)
    (maxRej minFeat : ℕ) (rng : ℕ → ℚ) (s : HCState R) (hk : minFeat ≤ s.kFeat)
    (p : HCPre R) (hb : hillBranch predict wanted minConf maxRej minFeat rng s =
      Sum.inr p) : minFeat ≤ p.kFeat ∧ p.kFeat ≤ s.kFeat := by
  simp only [hillBranch] at hb
  split_ifs at hb
  all_goals
    first
      | exact Sum.noConfusion hb
      | (cases hb; exact ⟨hk, le_refl _⟩)
      | (cases hb; exact ⟨le_max_left _ _, max_le hk (by omega)⟩)

/-- A continuing full iteration is the branch followed by the randomize
call on the branch's `best_x` and step size. -/
theorem hillStep_inr (predict : R → List ℚ) (wanted : ℕ) (minConf : ℚ)
    (maxRej minFeat : ℕ) (randomize : Option R → ℕ → R) (rng : ℕ → ℚ)
    (s s' : HCState R)
    (h : hillStep predict wanted minConf maxRej minFeat randomize rng s = Sum.inr s') :
    ∃ p, hillBranch predict wanted minConf maxRej minFeat rng s = Sum.inr p ∧
      s' = ⟨randomize p.bestX p.kFeat, p.bestX, p.bestConf, p.numRej, p.kFeat, p.rix⟩ := by
  rw [hillStep] at h
  cases hb : hillBranch predict wanted minConf maxRej minFeat rng s with
  | inl r => rw [hb] at h; exact absurd h (by simp)
  | inr p =>
      rw [hb] at h
      exact ⟨p, rfl, (Sum.inr.inj h).symm⟩

/-- The `minFeat ≤ kFeat` invariant holds along the whole state trace. -/
theorem hillStates_kFeat_invariant (predict : R → List ℚ) (wanted : ℕ)
    (minConf : ℚ) (maxRej minFeat : ℕ) (randomize : Option R → ℕ → R)
    (rng : ℕ → ℚ) (s : HCState R) (hk : minFeat ≤ s.kFeat) :
    ∀ n s₁, hillStates predict wanted minConf maxRej minFeat randomize rng n s =
        some s₁ → minFeat ≤ s₁.kFeat := by
  intro n
  induction n with
  | zero => intro s₁ h; cases h; exact hk
  | succ n ih =>
      intro s₁ h
      rw [hillStates] at h
      cases hprev : hillStates predict wanted minConf maxRej minFeat randomize rng n s with
      | none => rw [hprev] at h; exact absurd h (by simp)
      | some s' =>
          rw [hprev, Option.some_bind] at h
          cases hstep : hillStep predict wanted minConf maxRej minFeat randomize rng s' with
          | inl r => rw [hstep] at h; exact absurd h (by simp [stepOpt])
          | inr s'' =>
              rw [hstep] at h
              simp only [stepOpt] at h
              obtain rfl := Option.some.inj h
              obtain ⟨p, hbp, rfl⟩ := hillStep_inr predict wanted minConf maxRej minFeat
                randomize rng s' s'' hstep
              exact (hillBranch_inr_kFeat predict wanted minConf maxRej minFeat rng s'
                (ih s' hprev) p hbp).1

/-- C7: when a rejection makes the counter exceed `max_rejections`, the step
size becomes `max(min_features_randomized, ⌈k/2⌉)` and the counter resets to
`0`; consequently, along any search whose step size starts at or above
`min_features_randomized`, the step size is non-increasing and never drops
below `min_features_randomized`. -/
theorem hillClimb_step_size_annealing (predict : R → List ℚ) (wanted : ℕ)
    (minConf : ℚ) (maxRej minFeat : ℕ) (randomize : Option R → ℕ → R)
    (rng : ℕ → ℚ) (s : HCState R) :
    (((predict s.x).getD wanted 0 < s.bestConf → maxRej < s.numRej + 1 →
        hillBranch predict wanted minConf maxRej minFeat rng s =
          Sum.inr ⟨s.bestX, s.bestConf, 0, max minFeat ((s.kFeat + 1) / 2), s.rix⟩) ∧
      (minFeat ≤ s.kFeat → ∀ n s₁ s₂,
        hillStates predict wanted minConf maxRej minFeat randomize rng n s = some s₁ →
        hillStates predict wanted minConf maxRej minFeat randomize rng (n + 1) s =
          some s₂ →
        minFeat ≤ s₂.kFeat ∧ s₂.kFeat ≤ s₁.kFeat)) := by
  constructor
  · intro hlt hrej
    simp only [hillBranch]
    rw [if_neg (not_le.mpr hlt), if_pos hrej]
  · intro hk n s₁ s₂ h1 h2
    rw [hillStates, h1, Option.some_bind] at h2
    cases hstep : hillStep predict wanted minConf maxRej minFeat randomize rng s₁ with
    | inl r => rw [hstep] at h2; exact absurd h2 (by simp [stepOpt])
    | inr s'' =>
        rw [hstep] at h2
        simp only [stepOpt] at h2
        obtain rfl := Option.some.inj h2
        obtain ⟨p, hbp, rfl⟩ := hillStep_inr predict wanted minConf maxRej minFeat
          randomize rng s₁ s'' hstep
        have hks₁ := hillStates_kFeat_invariant predict wanted minConf maxRej minFeat
          randomize rng s hk n s₁ h1
        exact hillBranch_inr_kFeat predict wanted minConf maxRej minFeat rng s₁ hks₁ p hbp

/-- Witness for C7: a concrete over-rejected state halves its step size from
5 to 3 with the counter reset, and one concrete step keeps the size within
bounds. -/
theorem hillClimb_step_size_annealing_witness :
    hillBranch predA 1 0 3 1 rngZero ⟨1, some 0, 2, 3, 5, 0⟩ =
        Sum.inr ⟨some 0, 2, 0, max 1 3, 0⟩ ∧
      (1 ≤ (⟨1, some 0, 2, 0, 2, 0⟩ : HCState ℕ).kFeat ∧
        (⟨1, some 0, 2, 0, 2, 0⟩ : HCState ℕ).kFeat ≤
          (⟨0, none, 0, 0, 2, 0⟩ : HCState ℕ).kFeat) :=
  ⟨(hillClimb_step_size_annealing predA 1 0 3 1 randNext rngZero
        ⟨1, some 0, 2, 3, 5, 0⟩).1 (by decide) (by decide),
    (hillClimb_step_size_annealing predA 1 0 3 1 randNext rngZero
        ⟨0, none, 0, 0, 2, 0⟩).2 (by decide) 0 ⟨0, none, 0, 0, 2, 0⟩
      ⟨1, some 0, 2, 0, 2, 0⟩ rfl rfl⟩

/-- C8 (amended): with `min_confidence = 0` and at least one iteration, the
search returns the initial record immediately when that record's wanted-class
confidence is positive, the wanted class is the arg-max, and the first rng
draw falls strictly below the confidence.  (Acceptance is stochastic: without
the rng-draw condition the record may be rejected, see the counterexample.) -/
theorem hillClimb_degenerate_threshold_accept (predict : R → List ℚ)
    (wanted maxFeat maxIter maxRej minFeat : ℕ) (x₀ : R)
    (randomize : Option R → ℕ → R) (rng : ℕ → ℚ) (h1 : 1 ≤ maxIter)
    (hconf : 0 < (predict x₀).getD wanted 0)
    (harg : npArgmax (predict x₀) = wanted)
    (hrng : rng 0 < (predict x₀).getD wanted 0) :
    hillClimbingSynthesis predict wanted 0 maxFeat maxIter maxRej minFeat x₀
        randomize rng = Except.ok x₀ := by
  obtain ⟨m, rfl⟩ : ∃ m, maxIter = m + 1 := ⟨maxIter - 1, by omega⟩
  have hb : hillBranch predict wanted 0 maxRej minFeat rng
      ⟨x₀, none, 0, 0, maxFeat, 0⟩ = Sum.inl x₀ := by
    simp only [hillBranch]
    rw [if_pos (le_of_lt hconf), if_pos ⟨hconf, harg⟩, if_pos hrng]
  rw [hillClimbingSynthesis, hillClimbLoop, hillStep, hb]

/-- Witness for the amended C8: the first record is accepted on the spot. -/
theorem hillClimb_degenerate_threshold_accept_witness :
    (1 ≤ 1 ∧ (0 : ℚ) < (predB 0).getD 1 0 ∧ npArgmax (predB 0) = 1 ∧
        rngZero 0 < (predB 0).getD 1 0) ∧
      hillClimbingSynthesis predB 1 0 2 1 3 1 0 randNext rngZero = Except.ok 0 :=
  ⟨⟨by decide, by decide, by decide, by decide⟩,
    hillClimb_degenerate_threshold_accept predB 1 2 1 3 1 0 randNext rngZero
      (by decide) (by decide) (by decide) (by decide)⟩

/-- Counterexample to C8 as stated: with `min_confidence = 0` and
`max_iterations = 1`, the first record's wanted-class confidence (`1`) passes
the threshold and arg-max tests, yet the search does not return it — the
stochastic acceptance draw (`1`) is not below the confidence, and the search
exhausts its iterations with the synthesis-failure error. -/
theorem hillClimb_stochastic_rejection_cex :
    hillClimbingSynthesis predB 1 0 2 1 3 1 0 randNext rngOne =
        Except.error PyError.runtimeError ∧
      (0 : ℚ) < (predB 0).getD 1 0 ∧ npArgmax (predB 0) = 1 :=
  ⟨rfl, by decide, by decide⟩

/-- A continuing iteration started from a state whose `best_x` is present, or
whose confidence reading at least matches the best-known confidence, hands
the randomizer a present `best_x`. -/
theorem hillBranch_inr_bestX_isSome (predict : R → List ℚ) (wanted : ℕ)
    (minConf : ℚ) (maxRej minFeat : ℕ) (rng : ℕ → ℚ) (s : HCState R)
    (hs : s.bestX.isSome = true ∨ s.bestConf ≤ (predict s.x).getD wanted 0)
    (p : HCPre R)
    (hb : hillBranch predict wanted minConf maxRej minFeat rng s = Sum.inr p) :
    p.bestX.isSome = true := by
  simp only [hillBranch] at hb
  split_ifs at hb with h1 h2 h3 h4
  all_goals
    first
      | exact Sum.noConfusion hb
      | (cases hb; rfl)
      | (cases hb
         exact hs.resolve_right h1)

/-- Once the first reading is nonnegative, every later state in the trace has
a present `best_x`. -/
theorem hillStates_bestX_isSome (predict : R → List ℚ) (wanted : ℕ)
    (minConf : ℚ) (maxRej minFeat : ℕ) (randomize : Option R → ℕ → R)
    (rng : ℕ → ℚ) (s : HCState R)
    (hs : s.bestX.isSome = true ∨ s.bestConf ≤ (predict s.x).getD wanted 0) :
    ∀ n s₁, hillStates predict wanted minConf maxRej minFeat randomize rng (n + 1) s =
        some s₁ → s₁.bestX.isSome = true := by
  intro n
  induction n with
  | zero =>
      intro s₁ h
      rw [hillStates, hillStates, Option.some_bind] at h
      cases hstep : hillStep predict wanted minConf maxRej minFeat randomize rng s with
      | inl r => rw [hstep] at h; exact absurd h (by simp [stepOpt])
      | inr s'' =>
          rw [hstep] at h
          simp only [stepOpt] at h
          obtain rfl := Option.some.inj h
          obtain ⟨p, hbp, rfl⟩ := hillStep_inr predict wanted minConf maxRej minFeat
            randomize rng s s'' hstep
          exact hillBranch_inr_bestX_isSome predict wanted minConf maxRej minFeat rng s
            hs p hbp
  | succ n ih =>
      intro s₁ h
      rw [hillStates] at h
      cases hprev : hillStates predict wanted minConf maxRej minFeat randomize rng
          (n + 1) s with
      | none => rw [hprev] at h; exact absurd h (by simp)
      | some s' =>
          rw [hprev, Option.some_bind] at h
          cases hstep : hillStep predict wanted minConf maxRej minFeat randomize rng s' with
          | inl r => rw [hstep] at h; exact absurd h (by simp [stepOpt])
          | inr s'' =>
              rw [hstep] at h
              simp only [stepOpt] at h
              obtain rfl := Option.some.inj h
              obtain ⟨p, hbp, rfl⟩ := hillStep_inr predict wanted minConf maxRej minFeat
                randomize rng s' s'' hstep
              exact hillBranch_inr_bestX_isSome predict wanted minConf maxRej minFeat rng
                s' (Or.inl (ih s' hprev)) p hbp

/-- C10: starting from the initial state (`best_x = None`, best confidence
`0`), if the first reading of the wanted-class confidence is negative the
very first randomize call receives `None`; if it is nonnegative, every
continuing iteration along the whole search hands the randomizer a present
(non-`None`) record, so the `None` branch is unreachable. -/
theorem hillClimb_randomize_arg (predict : R → List ℚ) (wanted : ℕ)
    (minConf : ℚ) (maxRej minFeat maxFeat : ℕ) (randomize : Option R → ℕ → R)
    (rng : ℕ → ℚ) (x₀ : R) :
    (((predict x₀).getD wanted 0 < 0 →
        branchBestX (hillBranch predict wanted minConf maxRej minFeat rng
          ⟨x₀, none, 0, 0, maxFeat, 0⟩) = some none) ∧
      (0 ≤ (predict x₀).getD wanted 0 →
        ∀ n s₁ p, hillStates predict wanted minConf maxRej minFeat randomize rng n
            ⟨x₀, none, 0, 0, maxFeat, 0⟩ = some s₁ →
          hillBranch predict wanted minConf maxRej minFeat rng s₁ = Sum.inr p →
          p.bestX.isSome = true)) := by
  constructor
  · intro hneg
    simp only [hillBranch]
    rw [if_neg (not_le.mpr hneg)]
    split <;> rfl
  · intro h0 n s₁ p hst hbp
    cases n with
    | zero =>
        obtain rfl := Option.some.inj hst
        exact hillBranch_inr_bestX_isSome predict wanted minConf maxRej minFeat rng
          ⟨x₀, none, 0, 0, maxFeat, 0⟩ (Or.inr h0) p hbp
    | succ m =>
        exact hillBranch_inr_bestX_isSome predict wanted minConf maxRej minFeat rng s₁
          (Or.inl (hillStates_bestX_isSome predict wanted minConf maxRej minFeat
            randomize rng ⟨x₀, none, 0, 0, maxFeat, 0⟩ (Or.inr h0) m s₁ hst)) p hbp

/-- Witness for C10: a negative first score hands the randomizer `None`; with
a nonnegative first score the branch after one step carries a present
record. -/
theorem hillClimb_randomize_arg_witness :
    branchBestX (hillBranch predNeg 0 0 3 1 rngZero ⟨0, none, 0, 0, 2, 0⟩) =
        some none ∧
      (⟨some 1, 1, 0, 2, 0⟩ : HCPre ℕ).bestX.isSome = true :=
  ⟨(hillClimb_randomize_arg predNeg 0 0 3 1 2 randNext rngZero 0).1 (by decide),
    (hillClimb_randomize_arg predB 1 5 3 1 2 randNext rngZero 0).2 (by decide) 1
      ⟨1, some 0, 1, 0, 2, 0⟩ ⟨some 1, 1, 0, 2, 0⟩ rfl rfl⟩

theorem range_map_const (k : ℕ) (a : A) :
    (List.range k).map (fun _ => a) = List.replicate k a := by
  simp [List.map_const']

theorem synthIndexList_length (nb rpc : ℕ) :
    (synthIndexList nb rpc).length = nb * rpc := by
  rw [synthIndexList, List.length_flatMap]
  rw [List.map_congr_left (g := fun _ => rpc) (fun c _ => by simp)]
  exact sum_map_const_range nb rpc

theorem synthIndexList_map_oneHot (nb rpc n : ℕ) :
    (synthIndexList nb rpc).map (fun pr => oneHot n pr.1) =
      (List.range nb).flatMap (fun c => List.replicate rpc (oneHot n c)) := by
  rw [synthIndexList, List.map_flatMap]
  refine congrArg (fun f => (List.range nb).flatMap f) (funext fun c => ?_)
  rw [List.map_map]
  exact range_map_const rpc (oneHot n c)

theorem synthIndexList_mem {pr : ℕ × ℕ} {nb rpc : ℕ}
    (h : pr ∈ synthIndexList nb rpc) : pr.1 < nb ∧ pr.2 < rpc := by
  rw [synthIndexList, List.mem_flatMap] at h
  obtain ⟨c, hc, h2⟩ := h
  rw [List.mem_map] at h2
  obtain ⟨j, hj, rfl⟩ := h2
  exact ⟨by simpa using hc, by simpa using hj⟩

/-- When every scheduled record synthesis succeeds with a fresh record, the
collection loop returns all records in order, labelled class by class. -/
theorem buildSyntheticAux_ok (synth : ℕ → ℕ → ℕ → Except PyError R)
    (maxRetries nbClasses : ℕ) :
    ∀ (idx : List (ℕ × ℕ)) (last : Option R),
      (∀ pr ∈ idx, isOkSome (synthOneRecord (synth pr.1 pr.2) maxRetries).1 = true) →
      ∃ xs, buildSyntheticAux synth maxRetries nbClasses idx last =
          Except.ok (xs, idx.map (fun pr => oneHot nbClasses pr.1)) ∧
        xs.length = idx.length := by
  intro idx
  induction idx with
  | nil => exact fun last _ => ⟨[], rfl, rfl⟩
  | cons pr rest ih =>
      intro last hall
      have hh := hall pr (List.mem_cons_self _ _)
      cases hres : (synthOneRecord (synth pr.1 pr.2) maxRetries).1 with
      | error e => rw [hres] at hh; simp [isOkSome] at hh
      | ok o =>
          cases o with
          | none => rw [hres] at hh; simp [isOkSome] at hh
          | some r =>
              obtain ⟨xs, hb, hlen⟩ :=
                ih (some r) (fun q hq => hall q (List.mem_cons_of_mem _ hq))
              refine ⟨r :: xs, ?_, by simp [hlen]⟩
              simp only [buildSyntheticAux, hres, hb, List.map_cons]

/-- Records and labels are always appended in lockstep: a successful build
returns equally long lists, whatever the per-record outcomes were. -/
theorem buildSyntheticAux_lockstep (synth : ℕ → ℕ → ℕ → Except PyError R)
    (maxRetries nbClasses : ℕ) :
    ∀ (idx : List (ℕ × ℕ)) (last : Option R) (xs : List R) (ys : List (List ℚ)),
      buildSyntheticAux synth maxRetries nbClasses idx last = Except.ok (xs, ys) →
      xs.length = ys.length := by
  intro idx
  induction idx with
  | nil =>
      intro last xs ys h
      injection h with h'
      cases h'
      rfl
  | cons pr rest ih =>
      intro last xs ys h
      simp only [buildSyntheticAux] at h
      cases hres : (synthOneRecord (synth pr.1 pr.2) maxRetries).1 with
      | error e =>
          simp only [hres] at h
          exact Except.noConfusion h
      | ok o =>
          simp only [hres] at h
          cases o with
          | some r =>
              cases hb : buildSyntheticAux synth maxRetries nbClasses rest (some r) with
              | error e =>
                  simp only [hb] at h
                  exact Except.noConfusion h
              | ok q =>
                  cases q with
                  | mk xs' ys' =>
                      simp only [hb] at h
                      injection h with h'
                      cases h'
                      simp [ih (some r) xs' ys' hb]
          | none =>
              cases last with
              | none => simp at h
              | some r =>
                  cases hb : buildSyntheticAux synth maxRetries nbClasses rest (some r) with
                  | error e =>
                      simp only [hb] at h
                      exact Except.noConfusion h
                  | ok q =>
                      cases q with
                      | mk xs' ys' =>
                          simp only [hb] at h
                          injection h with h'
                          cases h'
                          simp [ih (some r) xs' ys' hb]

/-- C6: when every scheduled synthesis succeeds, the synthetic dataset has
exactly `dataset_size // nb_classes` records per class — the division
remainder is dropped — and the labels are, class by class in order, that many
copies of the class's one-hot vector. -/
theorem generateSynthetic_records_per_class (synth : ℕ → ℕ → ℕ → Except PyError R)
    (maxRetries nbClasses datasetSize : ℕ)
    (hok : ∀ c j, c < nbClasses → j < datasetSize / nbClasses →
      isOkSome (synthOneRecord (synth c j) maxRetries).1 = true) :
    (buildSyntheticDataset synth maxRetries nbClasses datasetSize).map
        (fun pq => (pq.1.length, pq.2)) =
      Except.ok (nbClasses * (datasetSize / nbClasses),
        (List.range nbClasses).flatMap
          (fun c => List.replicate (datasetSize / nbClasses) (oneHot nbClasses c))) := by
  obtain ⟨xs, hb, hlen⟩ := buildSyntheticAux_ok synth maxRetries nbClasses
    (synthIndexList nbClasses (datasetSize / nbClasses)) none
    (fun pr hpr => hok pr.1 pr.2 (synthIndexList_mem hpr).1 (synthIndexList_mem hpr).2)
  rw [buildSyntheticDataset, hb]
  simp only [Except.map]
  rw [hlen, synthIndexList_length, synthIndexList_map_oneHot]

/-- Witness for C6: `nb_classes = 2`, `dataset_size = 5` yields
`2 * (5 // 2) = 4` records, two per class. -/
theorem generateSynthetic_records_per_class_witness :
    (buildSyntheticDataset synthOk 1 2 5).map (fun pq => (pq.1.length, pq.2)) =
        Except.ok (2 * (5 / 2),
          (List.range 2).flatMap (fun c => List.replicate (5 / 2) (oneHot 2 c))) ∧
      2 * (5 / 2) = 4 :=
  ⟨generateSynthetic_records_per_class synthOk 1 2 5 (fun c j _ _ => rfl), by decide⟩

/-- C9: records and one-hot labels are appended in lockstep, so whenever the
synthesis phase succeeds the final `generate_shadow_dataset` call receives
equal-length inputs, returns without the validation error, and the composed
`generate_synthetic_shadow_dataset` can never surface that `ValueError`. -/
theorem generateSynthetic_lockstep_no_validation (fit : M → List R → List (List ℚ) → M)
    (mpredict : M → List R → List P) (synth : ℕ → ℕ → ℕ → Except PyError R)
    (randomIndices : List ℕ) (dA : R) (dB : List ℚ) (st : PoolState M R (List ℚ))
    (datasetSize maxRetries nbClasses : ℕ) (mfrac : ℚ) (xs : List R)
    (ys : List (List ℚ))
    (hb : buildSyntheticDataset synth maxRetries nbClasses datasetSize =
      Except.ok (xs, ys)) :
    xs.length = ys.length ∧
      isOkE (generateShadowDataset (P := P) fit mpredict randomIndices dA dB st xs ys
        mfrac).1 = true ∧
      (generateSyntheticShadowDataset (P := P) fit mpredict synth randomIndices dA dB
        st datasetSize maxRetries nbClasses mfrac).1 ≠
        Except.error PyError.valueError := by
  have hlen : xs.length = ys.length := by
    rw [buildSyntheticDataset] at hb
    exact buildSyntheticAux_lockstep synth maxRetries nbClasses _ none xs ys hb
  have h2 : isOkE (generateShadowDataset (P := P) fit mpredict randomIndices dA dB st
      xs ys mfrac).1 = true := by
    simp [generateShadowDataset, hlen, isOkE]
  refine ⟨hlen, h2, ?_⟩
  simp only [generateSyntheticShadowDataset, hb]
  intro hc
  rw [hc] at h2
  simp [isOkE] at h2

/-- Witness for C9 on the concrete synthetic build of C6's scenario. -/
theorem generateSynthetic_lockstep_no_validation_witness :
    ([0, 1, 10, 11] : List ℕ).length =
        ([oneHot 2 0, oneHot 2 0, oneHot 2 1, oneHot 2 1] : List (List ℚ)).length ∧
      isOkE (generateShadowDataset (P := ℕ) fitSyn mpredictEx [0, 1, 2, 3] 0 []
        exPoolSyn [0, 1, 10, 11] [oneHot 2 0, oneHot 2 0, oneHot 2 1, oneHot 2 1]
        oneHalf).1 = true ∧
      (generateSyntheticShadowDataset (P := ℕ) fitSyn mpredictEx synthOk [0, 1, 2, 3]
        0 [] exPoolSyn 5 1 2 oneHalf).1 ≠ Except.error PyError.valueError :=
  generateSynthetic_lockstep_no_validation fitSyn mpredictEx synthOk [0, 1, 2, 3] 0 []
    exPoolSyn 5 1 2 oneHalf [0, 1, 10, 11]
    [oneHot 2 0, oneHot 2 0, oneHot 2 1, oneHot 2 1] rfl
